import Mathlib

/-!
# Guinevere theme lifecycle: a shallow embedding of `src/index.js`

The module keeps one registry (`loadedThemeElements`) of what the active theme
put into the page, and two operations over it: `resetTheme` and `applyTheme`.
The embedding makes the state explicit (registry, settings, document, the
allocator of node identities, and an observable trace of toasts / console
output / hook invocations) and takes the outcomes of the I/O the code performs
(manifest fetch, HTML fetch and parse, selector matching, dynamic import and
the behaviour of the theme hooks) as a `World` argument.

Modelling choices:
* an `async` function is run to completion before the next one starts (calls do
  not overlap), so it is a function from state to state;
* a `try`/`catch` is a case split on how the guarded block completes; what a
  block changed before it threw stays changed;
* a theme hook (`execute`, `disable`) is known by whether it returns or throws;
  what the hook itself does to the page is theme code, not code of this module;
* every `document.createElement`, parsed node and jQuery clone yields a new
  object, named by the next unused identity;
* `import(specifier)` goes through the page's module map: a specifier loaded
  before resolves to the module object loaded then, a new specifier to a new
  object; the specifier is `<jsFile>?t=<Date.now()>`, so the clock reading
  `now` is part of the world;
* a selector is matched against the tag of a node.
-/

namespace Guinevere

/-! ## The document -/

/-- A forest of DOM nodes in first-child / next-sibling form: `node id tag kids rest`
is a node with identity `id`, its children `kids`, followed by its later siblings `rest`.
The `tag` is what selectors are matched against (for a stylesheet link it is its href). -/
inductive Dom where
  | nil : Dom
  | node (id : Nat) (tag : String) (kids : Dom) (rest : Dom) : Dom
deriving DecidableEq, Repr

namespace Dom

/-- Identities of all nodes of the forest, in document order. -/
def ids : Dom → List Nat
  | nil => []
  | node i _ k r => i :: (k.ids ++ r.ids)

/-- Number of nodes. -/
def size : Dom → Nat
  | nil => 0
  | node _ _ k r => 1 + k.size + r.size

/-- Sibling concatenation: the forest `d` followed by the forest `e`. -/
def append : Dom → Dom → Dom
  | nil, e => e
  | node i l k r, e => node i l k (r.append e)

/-- Top-level identities of a forest (the sibling chain), in order. -/
def roots : Dom → List Nat
  | nil => []
  | node i _ _ r => i :: r.roots

/-- Children identities of node `a`, in order (empty when `a` is absent). -/
def childrenOf (a : Nat) : Dom → List Nat
  | nil => []
  | node i _ k r => if i = a then k.roots else k.childrenOf a ++ r.childrenOf a

/-- Sibling chain (the whole chain, anchor included) that contains node `a`. -/
def siblingsOf (a : Nat) : Dom → List Nat
  | nil => []
  | node i l k r =>
    if a ∈ (node i l k r).roots then (node i l k r).roots
    else k.siblingsOf a ++ r.siblingsOf a

/-- The jQuery `.remove()` of the node `x`: it leaves the document with its subtree. -/
def remove (x : Nat) : Dom → Dom
  | nil => nil
  | node i l k r => if i = x then r.remove x else node i l (k.remove x) (r.remove x)

/-- The callback of jQuery `.before`: `a.parentNode.insertBefore(n, a)`. The anchor is
taken to have a parent element; next to the root element the browser throws instead, a
case this operation does not represent. -/
def insertBefore (a : Nat) (n : Dom) : Dom → Dom
  | nil => nil
  | node i l k r =>
    if i = a then n.append (node i l k r)
    else node i l (insertBefore a n k) (insertBefore a n r)

/-- The callback of jQuery `.after`: `a.parentNode.insertBefore(n, a.nextSibling)`, with
the same proviso on the anchor as `insertBefore`. -/
def insertAfter (a : Nat) (n : Dom) : Dom → Dom
  | nil => nil
  | node i l k r =>
    if i = a then node i l k (n.append r)
    else node i l (insertAfter a n k) (insertAfter a n r)

/-- The callback of jQuery `.prepend`: `a.insertBefore(n, a.firstChild)`. -/
def prepend (a : Nat) (n : Dom) : Dom → Dom
  | nil => nil
  | node i l k r =>
    if i = a then node i l (n.append k) r
    else node i l (prepend a n k) (prepend a n r)

/-- The DOM `a.appendChild(n)` (also the callback of jQuery `.append`). -/
def appendChild (a : Nat) (n : Dom) : Dom → Dom
  | nil => nil
  | node i l k r =>
    if i = a then node i l (k.append n) r
    else node i l (appendChild a n k) (appendChild a n r)

/-- The elements a selector matches, in document order: `$(selector)`. -/
def select (p : String → Bool) : Dom → List Nat
  | nil => []
  | node i l k r => (if p l then [i] else []) ++ (k.select p ++ r.select p)

/-- A copy of the forest with new identities `n, n+1, ...` given in document order. -/
def renumber (n : Nat) : Dom → Dom
  | nil => nil
  | node _ l k r => node n l (k.renumber (n + 1)) (r.renumber (n + 1 + k.size))

end Dom

/-- One top-level node produced by `$.parseHTML`: its tag and the shape of its subtree
(the identities inside `kids` are placeholders, replaced when the node is created). -/
structure Frag where
  tag : String
  kids : Dom
deriving DecidableEq, Repr

/-- Number of DOM nodes a fragment creates. -/
def Frag.size (f : Frag) : Nat := 1 + f.kids.size

/-- The DOM node created from a fragment with identities starting at `n`
(used both for the parsed node itself and for a jQuery deep clone of it). -/
def Frag.inst (f : Frag) (n : Nat) : Dom :=
  Dom.node n f.tag (f.kids.renumber (n + 1)) Dom.nil

/-! ## Theme packages and the outside world -/

/-- What invoking a theme hook (`execute` / `disable`) does: return (resolve) or throw (reject). -/
inductive Hook where
  | returns
  | throws
deriving DecidableEq, Repr

/-- Exports of a theme script; `none` means `typeof module.hook !== "function"`. -/
structure Exports where
  execute : Option Hook
  disable : Option Hook
deriving DecidableEq, Repr

/-- A registered module namespace object: `id` is the identity of the object, `exports`
what its hooks do when they are next invoked. -/
structure Module where
  id : Nat
  exports : Exports
deriving DecidableEq, Repr

/-- The `files` object of a manifest; `none` is an absent field. -/
structure Files where
  css : Option (List String)
  html : Option (List String)
  js : Option String
deriving DecidableEq, Repr

/-- The manifest.json of a theme; `none` is an absent field. -/
structure Manifest where
  name : Option String
  type : Option String
  files : Option Files
  injectPoint : Option String
  injectMethod : Option String
deriving DecidableEq, Repr

/-- Constants imported from `constants.js` (not part of the sources at hand). -/
structure Consts where
  extensionName : String
  extensionFolderPath : String

/-- Outcomes of the I/O performed during one `applyTheme`.
* `getJSON path`: the manifest, or `none` when `$.getJSON` rejects;
* `get path`: the top-level nodes `$.parseHTML((await $.get(path)).trim())` yields,
  or `none` when the fetch rejects or the parse throws;
* `selector s`: the predicate on node tags selecting the elements of `$(s)`,
  or `none` when jQuery throws on `s`;
* `importModule jsFile`: the exports of the module `import()` resolves to, or `none`
  when `import()` rejects;
* `now`: the value `Date.now()` returns when the import specifier is built. -/
structure World where
  getJSON : String → Option Manifest
  get : String → Option (List Frag)
  selector : String → Option (String → Bool)
  importModule : String → Option Exports
  now : Nat

/-! ## State -/

/-- A registered stylesheet handle `$(link)`. -/
structure Link where
  id : Nat
  href : String
deriving DecidableEq, Repr

/-- The registry `loadedThemeElements`. -/
structure LoadedThemeElements where
  css : List Link
  htmlElements : List Nat
  js : Option Module
deriving DecidableEq, Repr

/-- The object `extension_settings[extensionName]`; `none` is `null` / `undefined`. -/
structure Settings where
  enabled : Bool
  theme : Option String
  lastSuccessfulTheme : Option String
deriving DecidableEq, Repr

/-- Observable side effects other than DOM and settings mutation. -/
inductive Event where
  | toastrError (msg : String)
  | toastrSuccess (msg : String)
  | consoleError (msg : String)
  | consoleLog (msg : String)
  | saveSettingsDebounced
  | disableCalled (module : Nat)
  | executeCalled (module : Nat)
deriving DecidableEq, Repr

/-- Whole state the module reads and writes. `head` is the identity of `document.head`,
`nextId` the identity the next created node or module receives, `modules` the page's
module map: the import specifiers resolved so far, each with the identity of its module
object. -/
structure State where
  loaded : LoadedThemeElements
  settings : Settings
  doc : Dom
  head : Nat
  nextId : Nat
  trace : List Event
  modules : List (String × Nat)
deriving DecidableEq, Repr

/-- How a block of statements ends: normally, or with a thrown exception. -/
inductive Completion where
  | normal
  | thrown
deriving DecidableEq, Repr

/-- The path by which `applyTheme` ended (the JavaScript function itself returns nothing):
`applied` is the success path, `noTheme` and `unknownType` the two early returns,
`failed` the `catch` branch. -/
inductive Exit where
  | applied
  | noTheme
  | unknownType
  | failed
deriving DecidableEq, Repr

/-- JavaScript `x || d` for an optional string: absent and empty are falsy. -/
def orElse (x : Option String) (d : String) : String :=
  match x with
  | some v => if v = "" then d else v
  | none => d

/-- JavaScript truthiness test of an optional string, keeping the value. -/
def truthy (x : Option String) : Option String :=
  match x with
  | some v => if v = "" then none else some v
  | none => none

/-- Template-literal rendering of an optional string; `none` is rendered as `null`, the
value `resetTheme` writes (a key never written would print `undefined`). -/
def render (x : Option String) : String :=
  match x with
  | some v => v
  | none => "null"

/-- Append events to the trace. -/
def State.emit (s : State) (es : List Event) : State :=
  { s with trace := s.trace ++ es }

/-! ## `resetTheme` -/

/-- Lines 74-76 and 80-82: call `.remove()` on every handle of a list. -/
def removeAll (xs : List Nat) (d : Dom) : Dom :=
  xs.foldl (fun acc x => acc.remove x) d

/-- Lines 86-102: the deactivation step of `resetTheme`, as the events it produces. -/
def unloadJs (C : Consts) (s : State) : List Event :=
  let noJs := [Event.consoleLog ("[" ++ C.extensionName ++ "] No JS to unload for theme \""
      ++ render s.settings.lastSuccessfulTheme ++ "\".")]
  match s.loaded.js with
  | none => noJs
  | some m =>
    match m.exports.disable with
    | none => noJs
    | some Hook.returns => [Event.disableCalled m.id]
    | some Hook.throws =>
      [Event.disableCalled m.id,
       Event.consoleError "Error while disabling theme JS:",
       Event.toastrError "There was an error while disabling the theme's JavaScript code. Refresh SillyTavern to ensure all theme code is removed and contact the theme developer to fix this error."]

/-- The function `resetTheme(silent)` of index.js, lines 72-109. -/
def resetTheme (C : Consts) (silent : Bool) (s : State) : State :=
  let doc1 := removeAll (s.loaded.css.map Link.id) s.doc
  let doc2 := removeAll s.loaded.htmlElements doc1
  { s with
    loaded := { css := [], htmlElements := [], js := none }
    settings := { s.settings with lastSuccessfulTheme := none }
    doc := doc2
    trace := s.trace ++ unloadJs C s ++ [Event.saveSettingsDebounced]
      ++ (if silent then [] else [Event.toastrSuccess "Reset back to default SillyTavern theme."]) }

/-! ## CSS -/

/-- The function `applyCssFile(cssPath)`, lines 165-172. `document.createElement` takes the
next identity; `document.head.appendChild` throws when the page has no head element. -/
def applyCssFile (cssPath : String) (s : State) : Completion × State :=
  let link := s.nextId
  let s1 := { s with nextId := s.nextId + 1 }
  if s1.head ∈ s1.doc.ids then
    (Completion.normal,
      { s1 with
        doc := Dom.appendChild s1.head (Dom.node link cssPath Dom.nil Dom.nil) s1.doc
        loaded := { s1.loaded with css := s1.loaded.css ++ [{ id := link, href := cssPath }] } })
  else (Completion.thrown, s1)

/-- The loop of `applyCssTheme`, lines 181-183. -/
def applyCssFiles (themePath : String) : List String → State → Completion × State
  | [], s => (Completion.normal, s)
  | cssFile :: rest, s =>
    match applyCssFile (themePath ++ "/" ++ cssFile) s with
    | (Completion.normal, s1) => applyCssFiles themePath rest s1
    | (Completion.thrown, s1) => (Completion.thrown, s1)

/-- The function `applyCssTheme(themePath, manifest)`, lines 179-185. -/
def applyCssTheme (themePath : String) (manifest : Manifest) (s : State) : Completion × State :=
  match manifest.files.bind Files.css with
  | some files => applyCssFiles themePath files s
  | none => (Completion.normal, s)

/-! ## HTML -/

/-- Nodes created by `$.parseHTML` for the top-level fragments of one file, each paired
with the identity it receives; identities are handed out from `n` on. -/
def parseHTML : List Frag → Nat → List (Nat × Frag)
  | [], _ => []
  | f :: fs, n => (n, f) :: parseHTML fs (n + f.size)

/-- Number of DOM nodes created for the fragments of one file. -/
def fragsSize (fs : List Frag) : Nat := (fs.map Frag.size).sum

/-- The `switch (injectMethod)` of lines 212-225, as the DOM callback it selects. -/
def inject (injectMethod : String) : Nat → Dom → Dom → Dom :=
  if injectMethod = "after" then Dom.insertAfter
  else if injectMethod = "prepend" then Dom.prepend
  else if injectMethod = "append" then Dom.appendChild
  else Dom.insertBefore

/-- The jQuery manipulation `$(targets).method(el)`: the callback runs once per matched
target in document order; every target but the last receives a deep clone of the node
(new identities taken from `n`), the last one receives the node `el` itself. With no target
nothing is inserted. Returns the document and the next unused identity. -/
def domManip (ins : Nat → Dom → Dom → Dom) (f : Frag) (el : Nat) :
    List Nat → Dom → Nat → Dom × Nat
  | [], d, n => (d, n)
  | t :: ts, d, n =>
    if ts.isEmpty then (ins t (f.inst el) d, n)
    else domManip ins f el ts (ins t (f.inst n) d) (n + f.size)

/-- The loop over the parsed elements of one file, lines 209-228. -/
def injectElements (W : World) (manifest : Manifest) :
    List (Nat × Frag) → State → Completion × State
  | [], s => (Completion.normal, s)
  | (el, f) :: rest, s =>
    let injectPoint := orElse manifest.injectPoint "#top-bar"
    let injectMethod := orElse manifest.injectMethod "before"
    match W.selector injectPoint with
    | none => (Completion.thrown, s)
    | some p =>
      let r := domManip (inject injectMethod) f el (s.doc.select p) s.doc s.nextId
      injectElements W manifest rest
        { s with
          doc := r.1
          nextId := r.2
          loaded := { s.loaded with htmlElements := s.loaded.htmlElements ++ [el] } }

/-- The loop over `manifest.files.html`, lines 199-229. -/
def applyHtmlFiles (W : World) (themePath : String) (manifest : Manifest) :
    List String → State → Completion × State
  | [], s => (Completion.normal, s)
  | htmlFile :: rest, s =>
    match W.get (themePath ++ "/" ++ htmlFile) with
    | none => (Completion.thrown, s)
    | some frags =>
      match injectElements W manifest (parseHTML frags s.nextId)
          { s with nextId := s.nextId + fragsSize frags } with
      | (Completion.normal, s1) => applyHtmlFiles W themePath manifest rest s1
      | (Completion.thrown, s1) => (Completion.thrown, s1)

/-- The module object a resolved `import(specifier)` yields: the one the module map holds
for this specifier, or else a new object, which is entered in the map. Returns the
identity of the object and the state. -/
def resolveModule (specifier : String) (s : State) : Nat × State :=
  match s.modules.lookup specifier with
  | some m => (m, s)
  | none =>
    (s.nextId,
      { s with nextId := s.nextId + 1, modules := (specifier, s.nextId) :: s.modules })

/-- The script step of `applyHtmlTheme`, lines 233-244; its `try`/`catch` swallows both a
failed import and a throwing `execute`. The import specifier of line 236 is
`<jsFile>?t=<Date.now()>`. -/
def applyJs (W : World) (themeName : String) (manifest : Manifest) (s : State) : State :=
  match truthy (manifest.files.bind Files.js) with
  | none => s
  | some js =>
    let jsFile := "./themes/" ++ themeName ++ "/" ++ js
    let failure := [Event.consoleError ("Failed to load JS file '" ++ jsFile ++ "':")]
    match W.importModule jsFile with
    | none => s.emit failure
    | some ex =>
      let r := resolveModule (jsFile ++ "?t=" ++ toString W.now) s
      let s1 := { r.2 with
        loaded := { r.2.loaded with js := some { id := r.1, exports := ex } } }
      match ex.execute with
      | none => s1
      | some Hook.returns => s1.emit [Event.executeCalled r.1]
      | some Hook.throws => s1.emit (Event.executeCalled r.1 :: failure)

/-- The HTML step of `applyHtmlTheme`, lines 198-230. -/
def applyHtml (W : World) (themePath : String) (manifest : Manifest) (s : State) :
    Completion × State :=
  match manifest.files.bind Files.html with
  | some files => applyHtmlFiles W themePath manifest files s
  | none => (Completion.normal, s)

/-- The function `applyHtmlTheme(themePath, manifest, themeName)`, lines 193-245. -/
def applyHtmlTheme (W : World) (themePath : String) (manifest : Manifest) (themeName : String)
    (s : State) : Completion × State :=
  match applyCssTheme themePath manifest s with
  | (Completion.thrown, s1) => (Completion.thrown, s1)
  | (Completion.normal, s1) =>
    match applyHtml W themePath manifest s1 with
    | (Completion.thrown, s2) => (Completion.thrown, s2)
    | (Completion.normal, s2) => (Completion.normal, applyJs W themeName manifest s2)

/-- The function `applyFullTheme(themePath, manifest, themeName)`, lines 252-263. -/
def applyFullTheme (W : World) (themePath : String) (manifest : Manifest) (themeName : String)
    (s : State) : Completion × State :=
  let caught := [Event.consoleError ("Error applying full theme \"" ++ themeName ++ "\":")]
  match applyCssTheme themePath manifest s with
  | (Completion.thrown, s1) => (Completion.thrown, s1.emit caught)
  | (Completion.normal, s1) =>
    match applyHtmlTheme W themePath manifest themeName s1 with
    | (Completion.thrown, s2) => (Completion.thrown, s2.emit caught)
    | (Completion.normal, s2) => (Completion.normal, s2)

/-! ## `applyTheme` and the click handler -/

/-- The `switch (themeType)` of lines 132-145; `none` is the `default` branch. -/
def dispatch (W : World) (themeType themePath : String) (manifest : Manifest)
    (themeName : String) (s : State) : Option (Completion × State) :=
  if themeType = "css" then some (applyCssTheme themePath manifest s)
  else if themeType = "html" then some (applyHtmlTheme W themePath manifest themeName s)
  else if themeType = "full" then some (applyFullTheme W themePath manifest themeName s)
  else none

/-- The `catch` branch of `applyTheme`, lines 153-158. -/
def applyFailed (themeName : String) (s : State) : Exit × State :=
  (Exit.failed, s.emit
    [Event.consoleError ("Failed to load/apply theme '" ++ themeName ++ "':"),
     Event.toastrError ("Failed to load/apply theme \"" ++ themeName
       ++ "\". Check the console for details.")])

/-- The function `applyTheme(silent)`, lines 115-159. -/
def applyTheme (C : Consts) (W : World) (silent : Bool) (s : State) : Exit × State :=
  let s0 := resetTheme C true s
  match truthy s0.settings.theme with
  | none => (Exit.noTheme, s0.emit [Event.toastrError "No theme specified."])
  | some themeName =>
    let themePath := C.extensionFolderPath ++ "/themes/" ++ themeName
    let manifestPath := themePath ++ "/manifest.json"
    match W.getJSON manifestPath with
    | none => applyFailed themeName s0
    | some manifest =>
      let themeType := orElse manifest.type "full"
      match dispatch W themeType themePath manifest themeName s0 with
      | none =>
        (Exit.unknownType, s0.emit
          [Event.toastrError ("Unknown theme type \"" ++ themeType ++ "\" in manifest.")])
      | some (Completion.thrown, s1) => applyFailed themeName s1
      | some (Completion.normal, s1) =>
        (Exit.applied,
          { s1 with
            settings := { s1.settings with lastSuccessfulTheme := some themeName }
            trace := s1.trace ++ (if silent then [] else
              [Event.toastrSuccess ("Applied '" ++ orElse manifest.name themeName
                ++ "' theme successfully.")]) })

/-- The handler `onThemeApplyClick()`, lines 52-58. -/
def onThemeApplyClick (C : Consts) (W : World) (s : State) : State :=
  if !s.settings.enabled then s.emit [Event.toastrError "Guinevere is not enabled."]
  else (applyTheme C W false s).2

/-- Identities of the DOM nodes the registry holds: stylesheet links, then HTML nodes. -/
def LoadedThemeElements.nodes (r : LoadedThemeElements) : List Nat :=
  r.css.map Link.id ++ r.htmlElements

/-- Identities of everything the registry holds: its DOM nodes and the module. -/
def LoadedThemeElements.handles (r : LoadedThemeElements) : List Nat :=
  r.nodes ++ r.js.toList.map Module.id

/-- The manifest with the script declaration `files.js` taken out. -/
def Manifest.dropJs (M : Manifest) : Manifest :=
  { M with files := M.files.map (fun f => { f with js := none }) }

/-! ## A concrete page and concrete themes -/

/-- Example values of the constants. -/
def exConsts : Consts := { extensionName := "Guinevere", extensionFolderPath := "ext" }

/-- Example host page: `html` with a `head` and a `body` holding `#top-bar` and `#chat`. -/
def exPage : Dom :=
  Dom.node 0 "html"
    (Dom.node 1 "head" Dom.nil
      (Dom.node 2 "body" (Dom.node 3 "#top-bar" Dom.nil (Dom.node 4 "#chat" Dom.nil Dom.nil))
        Dom.nil))
    Dom.nil

/-- Example starting state: the host page, nothing registered, the given theme selected. -/
def exState (theme : Option String) : State :=
  { loaded := { css := [], htmlElements := [], js := none }
    settings := { enabled := true, theme := theme, lastSuccessfulTheme := none }
    doc := exPage
    head := 1
    nextId := 5
    trace := []
    modules := [] }

/-- Example manifest: one stylesheet, two HTML files, optionally a script. -/
def exManifest (type : Option String) (injectMethod : Option String) (js : Option String) :
    Manifest :=
  { name := none
    type := type
    files := some { css := some ["a.css"], html := some ["x.html", "y.html"], js := js }
    injectPoint := none
    injectMethod := injectMethod }

/-- Example world: serves the manifest `M` for theme `midnight`; `x.html` parses to two
top-level nodes and `y.html` to one; a selector matches the nodes tagged with it; the
theme script, when imported, has the given exports; the clock reads 0. -/
def exWorld (M : Manifest) (script : Option Exports) : World :=
  { getJSON := fun p => if p = "ext/themes/midnight/manifest.json" then some M else none
    get := fun p =>
      if p = "ext/themes/midnight/x.html" then
        some [{ tag := "x1", kids := Dom.nil }, { tag := "x2", kids := Dom.nil }]
      else if p = "ext/themes/midnight/y.html" then some [{ tag := "y1", kids := Dom.nil }]
      else none
    selector := fun sel => some (fun tag => tag == sel)
    importModule := fun _ => script
    now := 0 }

/-- Example world serving `midnight` as an `html` theme with the script `code.js`, whose
hooks both return; `Date.now()` reads `now` when the script is imported. -/
def exScriptWorld (now : Nat) : World :=
  { exWorld (exManifest (some "html") none (some "code.js"))
      (some { execute := some Hook.returns, disable := some Hook.returns }) with
    now := now }

/-- Example CSS-only manifest of the theme `midnight`. -/
def midnightManifest : Manifest :=
  { name := none
    type := some "css"
    files := some { css := some ["a.css"], html := none, js := none }
    injectPoint := none
    injectMethod := none }

/-- Example state in which the theme `midnight` is applied and then the theme named by
`next` has been typed into the settings. -/
def exApplied (next : Option String) : State :=
  { (applyTheme exConsts (exWorld midnightManifest none) true (exState (some "midnight"))).2 with
    settings :=
      { enabled := true, theme := next, lastSuccessfulTheme := some "midnight" } }

/-- Example state in which `midnight` is applied and theming has then been switched off. -/
def exDisabled : State :=
  { exApplied (some "midnight") with
    settings :=
      { enabled := false, theme := some "midnight", lastSuccessfulTheme := some "midnight" } }

/-! ## Growth of a state during an apply -/

/-- State `t` extends state `s` with identities from `b` on: every node of the document of
`t` and every node registered in `t` is one of `s` or has an identity at least `b`
(and, if registered, below the next unused identity of `t`). -/
structure Ext (b : Nat) (s t : State) : Prop where
  next : s.nextId ≤ t.nextId
  doc : ∀ x ∈ t.doc.ids, x ∈ s.doc.ids ∨ b ≤ x
  reg : ∀ h ∈ t.loaded.nodes, h ∈ s.loaded.nodes ∨ (b ≤ h ∧ h < t.nextId)

/-! ## Facts about the document operations -/

theorem Dom.mem_ids_append (x : Nat) (d e : Dom) :
    x ∈ (d.append e).ids ↔ x ∈ d.ids ∨ x ∈ e.ids := by
  induction d with
  | nil => simp [Dom.append, Dom.ids]
  | node i l k r _ ihr =>
    simp only [Dom.append, Dom.ids, List.mem_cons, List.mem_append, ihr]
    tauto

theorem Dom.not_mem_ids_remove (x : Nat) (d : Dom) : x ∉ (d.remove x).ids := by
  induction d with
  | nil => simp [Dom.remove, Dom.ids]
  | node i l k r ihk ihr =>
    by_cases h : i = x
    · simpa [Dom.remove, h] using ihr
    · simp only [Dom.remove, h, if_false, Dom.ids, List.mem_cons, List.mem_append]
      intro hx
      rcases hx with hx | hx | hx
      · exact h hx.symm
      · exact ihk hx
      · exact ihr hx

theorem Dom.mem_ids_of_mem_remove (x y : Nat) (d : Dom) (h : y ∈ (d.remove x).ids) :
    y ∈ d.ids := by
  induction d with
  | nil => simpa [Dom.remove] using h
  | node i l k r ihk ihr =>
    by_cases hi : i = x
    · simp only [Dom.remove, hi, if_true] at h
      simp only [Dom.ids, List.mem_cons, List.mem_append]
      exact Or.inr (Or.inr (ihr h))
    · simp only [Dom.remove, hi, if_false, Dom.ids, List.mem_cons, List.mem_append] at h
      simp only [Dom.ids, List.mem_cons, List.mem_append]
      rcases h with h | h | h
      · exact Or.inl h
      · exact Or.inr (Or.inl (ihk h))
      · exact Or.inr (Or.inr (ihr h))

theorem Dom.mem_ids_insertBefore (a y : Nat) (n d : Dom) :
    y ∈ (Dom.insertBefore a n d).ids → y ∈ d.ids ∨ y ∈ n.ids := by
  induction d with
  | nil => intro h; exact Or.inl h
  | node i l k r ihk ihr =>
    by_cases hi : i = a
    · simp only [Dom.insertBefore, hi, if_true, Dom.mem_ids_append]
      tauto
    · simp only [Dom.insertBefore, hi, if_false, Dom.ids, List.mem_cons, List.mem_append]
      tauto

theorem Dom.mem_ids_insertAfter (a y : Nat) (n d : Dom) :
    y ∈ (Dom.insertAfter a n d).ids → y ∈ d.ids ∨ y ∈ n.ids := by
  induction d with
  | nil => intro h; exact Or.inl h
  | node i l k r ihk ihr =>
    by_cases hi : i = a
    · simp only [Dom.insertAfter, hi, if_true, Dom.ids, List.mem_cons, List.mem_append,
        Dom.mem_ids_append]
      tauto
    · simp only [Dom.insertAfter, hi, if_false, Dom.ids, List.mem_cons, List.mem_append]
      tauto

theorem Dom.mem_ids_prepend (a y : Nat) (n d : Dom) :
    y ∈ (Dom.prepend a n d).ids → y ∈ d.ids ∨ y ∈ n.ids := by
  induction d with
  | nil => intro h; exact Or.inl h
  | node i l k r ihk ihr =>
    by_cases hi : i = a
    · simp only [Dom.prepend, hi, if_true, Dom.ids, List.mem_cons, List.mem_append,
        Dom.mem_ids_append]
      tauto
    · simp only [Dom.prepend, hi, if_false, Dom.ids, List.mem_cons, List.mem_append]
      tauto

theorem Dom.mem_ids_appendChild (a y : Nat) (n d : Dom) :
    y ∈ (Dom.appendChild a n d).ids → y ∈ d.ids ∨ y ∈ n.ids := by
  induction d with
  | nil => intro h; exact Or.inl h
  | node i l k r ihk ihr =>
    by_cases hi : i = a
    · simp only [Dom.appendChild, hi, if_true, Dom.ids, List.mem_cons, List.mem_append,
        Dom.mem_ids_append]
      tauto
    · simp only [Dom.appendChild, hi, if_false, Dom.ids, List.mem_cons, List.mem_append]
      tauto

theorem Dom.mem_ids_appendChild_of_mem (a y : Nat) (n d : Dom) (h : y ∈ d.ids) :
    y ∈ (Dom.appendChild a n d).ids := by
  induction d with
  | nil => simp [Dom.ids] at h
  | node i l k r ihk ihr =>
    simp only [Dom.ids, List.mem_cons, List.mem_append] at h
    by_cases hi : i = a
    · simp only [Dom.appendChild, hi, if_true, Dom.ids, List.mem_cons, List.mem_append,
        Dom.mem_ids_append]
      subst hi
      tauto
    · simp only [Dom.appendChild, hi, if_false, Dom.ids, List.mem_cons, List.mem_append]
      tauto

theorem Dom.mem_ids_appendChild_new (a y : Nat) (n d : Dom) (ha : a ∈ d.ids) (h : y ∈ n.ids) :
    y ∈ (Dom.appendChild a n d).ids := by
  induction d with
  | nil => simp [Dom.ids] at ha
  | node i l k r ihk ihr =>
    simp only [Dom.ids, List.mem_cons, List.mem_append] at ha
    by_cases hi : i = a
    · simp only [Dom.appendChild, hi, if_true, Dom.ids, List.mem_cons, List.mem_append,
        Dom.mem_ids_append]
      tauto
    · simp only [Dom.appendChild, hi, if_false, Dom.ids, List.mem_cons, List.mem_append]
      have : a ≠ i := fun e => hi e.symm
      tauto

theorem mem_ids_inject (m : String) (a y : Nat) (n d : Dom) :
    y ∈ (inject m a n d).ids → y ∈ d.ids ∨ y ∈ n.ids := by
  unfold inject
  split_ifs
  · exact Dom.mem_ids_insertAfter a y n d
  · exact Dom.mem_ids_prepend a y n d
  · exact Dom.mem_ids_appendChild a y n d
  · exact Dom.mem_ids_insertBefore a y n d

theorem Dom.mem_ids_renumber (n x : Nat) (d : Dom) (h : x ∈ (d.renumber n).ids) :
    n ≤ x ∧ x < n + d.size := by
  induction d generalizing n with
  | nil => simp [Dom.renumber, Dom.ids] at h
  | node i l k r ihk ihr =>
    simp only [Dom.renumber, Dom.ids, List.mem_cons, List.mem_append] at h
    simp only [Dom.size]
    rcases h with h | h | h
    · omega
    · have := ihk _ h
      omega
    · have := ihr _ h
      omega

theorem Frag.mem_ids_inst (f : Frag) (n x : Nat) (h : x ∈ (f.inst n).ids) :
    n ≤ x ∧ x < n + f.size := by
  simp only [Frag.inst, Dom.ids, List.mem_cons, List.mem_append, List.not_mem_nil, or_false] at h
  simp only [Frag.size]
  rcases h with h | h
  · omega
  · have := Dom.mem_ids_renumber _ _ _ h
    omega

theorem not_mem_removeAll (xs : List Nat) (d : Dom) (x : Nat) (h : x ∈ xs) :
    x ∉ (removeAll xs d).ids := by
  induction xs generalizing d with
  | nil => simp at h
  | cons a t ih =>
    simp only [removeAll, List.foldl_cons]
    rcases List.mem_cons.mp h with rfl | h
    · intro hx
      have key : ∀ (ys : List Nat) (e : Dom), x ∈ (removeAll ys e).ids → x ∈ e.ids := by
        intro ys
        induction ys with
        | nil => intro e he; simpa [removeAll] using he
        | cons b u ihu =>
          intro e he
          simp only [removeAll, List.foldl_cons] at he
          exact Dom.mem_ids_of_mem_remove _ _ _ (ihu _ he)
      exact Dom.not_mem_ids_remove x d (key t _ hx)
    · exact ih _ h

theorem mem_of_mem_removeAll (xs : List Nat) (d : Dom) (y : Nat)
    (h : y ∈ (removeAll xs d).ids) : y ∈ d.ids := by
  induction xs generalizing d with
  | nil => simpa [removeAll] using h
  | cons a t ih =>
    simp only [removeAll, List.foldl_cons] at h
    exact Dom.mem_ids_of_mem_remove _ _ _ (ih _ h)

/-! ## Growth of a state during an apply: the lemmas -/

theorem Ext.same {b : Nat} {s t : State} (hn : s.nextId ≤ t.nextId) (hd : t.doc = s.doc)
    (hl : t.loaded.nodes = s.loaded.nodes) : Ext b s t :=
  ⟨hn, fun _ hx => Or.inl (hd ▸ hx), fun _ hh => Or.inl (hl ▸ hh)⟩

theorem Ext.trans {b c : Nat} {s t u : State} (h1 : Ext b s t) (h2 : Ext c t u)
    (hbc : b ≤ c) : Ext b s u := by
  refine ⟨le_trans h1.next h2.next, ?_, ?_⟩
  · intro x hx
    rcases h2.doc x hx with h | h
    · exact h1.doc x h
    · exact Or.inr (le_trans hbc h)
  · intro h hh
    rcases h2.reg h hh with h' | ⟨h', h''⟩
    · rcases h1.reg h h' with h3 | ⟨h3, h4⟩
      · exact Or.inl h3
      · exact Or.inr ⟨h3, lt_of_lt_of_le h4 h2.next⟩
    · exact Or.inr ⟨le_trans hbc h', h''⟩

theorem Ext.emit {b : Nat} {s t : State} (h : Ext b s t) (es : List Event) :
    Ext b s (t.emit es) :=
  ⟨h.next, h.doc, h.reg⟩

theorem mem_nodes (r : LoadedThemeElements) (h : Nat) :
    h ∈ r.nodes ↔ (∃ l ∈ r.css, l.id = h) ∨ h ∈ r.htmlElements := by
  simp [LoadedThemeElements.nodes]

theorem applyCssFile_ext (p : String) (s : State) : Ext s.nextId s (applyCssFile p s).2 := by
  unfold applyCssFile
  by_cases hh : s.head ∈ s.doc.ids
  · simp only [hh, if_true]
    refine ⟨Nat.le_succ _, ?_, ?_⟩
    · intro x hx
      rcases Dom.mem_ids_appendChild _ _ _ _ hx with h | h
      · exact Or.inl h
      · simp [Dom.ids] at h
        exact Or.inr (le_of_eq h.symm)
    · intro h hh'
      rw [mem_nodes] at hh'
      rw [mem_nodes]
      simp only [List.mem_append, List.mem_singleton] at hh'
      rcases hh' with ⟨l, hl | hl, rfl⟩ | h2
      · exact Or.inl (Or.inl ⟨l, hl, rfl⟩)
      · subst hl
        exact Or.inr ⟨le_refl _, Nat.lt_succ_self _⟩
      · exact Or.inl (Or.inr h2)
  · simp only [hh, if_false]
    exact Ext.same (Nat.le_succ _) rfl rfl

theorem applyCssFiles_ext (p : String) (fs : List String) (s : State) :
    Ext s.nextId s (applyCssFiles p fs s).2 := by
  induction fs generalizing s with
  | nil => exact Ext.same (le_refl _) rfl rfl
  | cons f fs ih =>
    have h1 := applyCssFile_ext (p ++ "/" ++ f) s
    rcases hr : applyCssFile (p ++ "/" ++ f) s with ⟨c, s1⟩
    rw [hr] at h1
    cases c
    · simp only [applyCssFiles, hr]
      exact h1.trans (ih s1) h1.next
    · simp only [applyCssFiles, hr]
      exact h1

theorem applyCssTheme_ext (p : String) (M : Manifest) (s : State) :
    Ext s.nextId s (applyCssTheme p M s).2 := by
  unfold applyCssTheme
  cases M.files.bind Files.css with
  | none => exact Ext.same (le_refl _) rfl rfl
  | some fs => exact applyCssFiles_ext p fs s

theorem domManip_ids (ins : Nat → Dom → Dom → Dom)
    (hins : ∀ a y n d, y ∈ (ins a n d).ids → y ∈ d.ids ∨ y ∈ n.ids)
    (f : Frag) (el : Nat) (ts : List Nat) (d : Dom) (n : Nat) :
    n ≤ (domManip ins f el ts d n).2 ∧
    ∀ x ∈ (domManip ins f el ts d n).1.ids,
      x ∈ d.ids ∨ (el ≤ x ∧ x < el + f.size) ∨ n ≤ x := by
  induction ts generalizing d n with
  | nil => exact ⟨le_refl _, fun x hx => Or.inl hx⟩
  | cons t ts ih =>
    by_cases he : ts.isEmpty = true
    · simp only [domManip, he, if_true]
      refine ⟨le_refl _, fun x hx => ?_⟩
      rcases hins _ _ _ _ hx with h | h
      · exact Or.inl h
      · exact Or.inr (Or.inl (Frag.mem_ids_inst _ _ _ h))
    · simp only [domManip, he]
      obtain ⟨ih1, ih2⟩ := ih (ins t (f.inst n) d) (n + f.size)
      refine ⟨le_trans (Nat.le_add_right _ _) ih1, fun x hx => ?_⟩
      rcases ih2 x hx with h | h | h
      · rcases hins _ _ _ _ h with h' | h'
        · exact Or.inl h'
        · exact Or.inr (Or.inr (Frag.mem_ids_inst _ _ _ h').1)
      · exact Or.inr (Or.inl h)
      · exact Or.inr (Or.inr (le_trans (Nat.le_add_right _ _) h))

theorem injectElements_ext (W : World) (M : Manifest) (els : List (Nat × Frag)) (s : State)
    (b : Nat) (hb : b ≤ s.nextId)
    (hels : ∀ e ∈ els, b ≤ e.1 ∧ e.1 + e.2.size ≤ s.nextId) :
    Ext b s (injectElements W M els s).2 := by
  induction els generalizing s with
  | nil => exact Ext.same (le_refl _) rfl rfl
  | cons e els ih =>
    obtain ⟨el, f⟩ := e
    simp only [injectElements]
    cases hsel : W.selector (orElse M.injectPoint "#top-bar") with
    | none => exact Ext.same (le_refl _) rfl rfl
    | some q =>
      simp only []
      have hel := hels (el, f) (List.mem_cons_self _ _)
      obtain ⟨hd1, hd2⟩ := domManip_ids (inject (orElse M.injectMethod "before"))
        (mem_ids_inject _) f el (s.doc.select q) s.doc s.nextId
      have step : Ext b s
          { s with
            doc := (domManip (inject (orElse M.injectMethod "before")) f el
              (s.doc.select q) s.doc s.nextId).1
            nextId := (domManip (inject (orElse M.injectMethod "before")) f el
              (s.doc.select q) s.doc s.nextId).2
            loaded := { s.loaded with htmlElements := s.loaded.htmlElements ++ [el] } } := by
        refine ⟨hd1, ?_, ?_⟩
        · intro x hx
          rcases hd2 x hx with h | h | h
          · exact Or.inl h
          · exact Or.inr (le_trans hel.1 h.1)
          · exact Or.inr (le_trans hb h)
        · intro h hh
          rw [mem_nodes] at hh
          rw [mem_nodes]
          simp only [List.mem_append, List.mem_singleton] at hh
          rcases hh with h1 | (h2 | h2)
          · exact Or.inl (Or.inl h1)
          · exact Or.inl (Or.inr h2)
          · subst h2
            refine Or.inr ⟨hel.1, ?_⟩
            have : h < s.nextId := by
              have := hel.2
              simp only [Frag.size] at this
              omega
            exact lt_of_lt_of_le this hd1
      refine step.trans (ih _ (le_trans hb hd1) ?_) (le_refl _)
      intro e he
      have := hels e (List.mem_cons_of_mem _ he)
      exact ⟨this.1, le_trans this.2 hd1⟩

theorem parseHTML_bounds (fs : List Frag) (n : Nat) :
    ∀ e ∈ parseHTML fs n, n ≤ e.1 ∧ e.1 + e.2.size ≤ n + fragsSize fs := by
  induction fs generalizing n with
  | nil => intro e he; simp [parseHTML] at he
  | cons f fs ih =>
    intro e he
    simp only [parseHTML, List.mem_cons] at he
    simp only [fragsSize, List.map_cons, List.sum_cons]
    rcases he with rfl | he
    · simp only []
      omega
    · have := ih (n + f.size) e he
      simp only [fragsSize] at this
      omega

theorem applyHtmlFiles_ext (W : World) (p : String) (M : Manifest) (fs : List String)
    (s : State) : Ext s.nextId s (applyHtmlFiles W p M fs s).2 := by
  induction fs generalizing s with
  | nil => exact Ext.same (le_refl _) rfl rfl
  | cons f fs ih =>
    simp only [applyHtmlFiles]
    cases hget : W.get (p ++ "/" ++ f) with
    | none => exact Ext.same (le_refl _) rfl rfl
    | some frags =>
      simp only []
      have h0 : Ext s.nextId s { s with nextId := s.nextId + fragsSize frags } :=
        Ext.same (Nat.le_add_right _ _) rfl rfl
      have h1 := injectElements_ext W M (parseHTML frags s.nextId)
        { s with nextId := s.nextId + fragsSize frags } s.nextId (Nat.le_add_right _ _)
        (parseHTML_bounds frags s.nextId)
      have h2 := h0.trans h1 (le_refl _)
      rcases hr : injectElements W M (parseHTML frags s.nextId)
        { s with nextId := s.nextId + fragsSize frags } with ⟨c, s1⟩
      rw [hr] at h2
      cases c
      · simp only []
        exact h2.trans (ih s1) h2.next
      · exact h2

theorem resolveModule_next (sp : String) (s : State) :
    s.nextId ≤ (resolveModule sp s).2.nextId ∧
    (resolveModule sp s).2.doc = s.doc ∧
    (resolveModule sp s).2.loaded = s.loaded ∧
    (resolveModule sp s).2.settings = s.settings ∧
    (resolveModule sp s).2.trace = s.trace := by
  unfold resolveModule
  cases s.modules.lookup sp with
  | some m => exact ⟨le_refl _, rfl, rfl, rfl, rfl⟩
  | none => exact ⟨Nat.le_succ _, rfl, rfl, rfl, rfl⟩

theorem applyJs_ext (W : World) (N : String) (M : Manifest) (s : State) :
    Ext s.nextId s (applyJs W N M s) := by
  unfold applyJs
  cases truthy (M.files.bind Files.js) with
  | none => exact Ext.same (le_refl _) rfl rfl
  | some js =>
    simp only []
    cases W.importModule ("./themes/" ++ N ++ "/" ++ js) with
    | none => exact Ext.same (le_refl _) rfl rfl
    | some ex =>
      obtain ⟨r1, r2, r3, _, _⟩ := resolveModule_next
        ("./themes/" ++ N ++ "/" ++ js ++ "?t=" ++ toString W.now) s
      have key : Ext s.nextId s
          { (resolveModule ("./themes/" ++ N ++ "/" ++ js ++ "?t=" ++ toString W.now) s).2 with
            loaded :=
              { (resolveModule ("./themes/" ++ N ++ "/" ++ js ++ "?t=" ++ toString W.now)
                  s).2.loaded with
                js := some
                  { id := (resolveModule ("./themes/" ++ N ++ "/" ++ js ++ "?t="
                      ++ toString W.now) s).1
                    exports := ex } } } :=
        Ext.same r1 r2 (by simp [LoadedThemeElements.nodes, r3])
      simp only []
      cases ex.execute with
      | none => exact key
      | some hk =>
        cases hk
        · exact key.emit _
        · exact key.emit _

theorem applyHtml_ext (W : World) (p : String) (M : Manifest) (s : State) :
    Ext s.nextId s (applyHtml W p M s).2 := by
  unfold applyHtml
  cases M.files.bind Files.html with
  | none => exact Ext.same (le_refl _) rfl rfl
  | some fs => exact applyHtmlFiles_ext W p M fs s

theorem applyHtmlTheme_ext (W : World) (p : String) (M : Manifest) (N : String) (s : State) :
    Ext s.nextId s (applyHtmlTheme W p M N s).2 := by
  unfold applyHtmlTheme
  have h1 := applyCssTheme_ext p M s
  rcases hr : applyCssTheme p M s with ⟨c, s1⟩
  rw [hr] at h1
  cases c
  · simp only []
    have h2 := applyHtml_ext W p M s1
    rcases hr2 : applyHtml W p M s1 with ⟨c2, s2⟩
    rw [hr2] at h2
    have h12 := h1.trans h2 h1.next
    cases c2
    · simp only []
      exact h12.trans (applyJs_ext W N M s2) h12.next
    · exact h12
  · exact h1

theorem applyFullTheme_ext (W : World) (p : String) (M : Manifest) (N : String) (s : State) :
    Ext s.nextId s (applyFullTheme W p M N s).2 := by
  unfold applyFullTheme
  have h1 := applyCssTheme_ext p M s
  rcases hr : applyCssTheme p M s with ⟨c, s1⟩
  rw [hr] at h1
  cases c
  · simp only []
    have h2 := applyHtmlTheme_ext W p M N s1
    rcases hr2 : applyHtmlTheme W p M N s1 with ⟨c2, s2⟩
    rw [hr2] at h2
    have h12 := h1.trans h2 h1.next
    cases c2
    · exact h12
    · exact h12.emit _
  · exact h1.emit _

theorem dispatch_ext (W : World) (ty p : String) (M : Manifest) (N : String) (s : State)
    (r : Completion × State) (h : dispatch W ty p M N s = some r) : Ext s.nextId s r.2 := by
  unfold dispatch at h
  split_ifs at h
  · cases h; exact applyCssTheme_ext p M s
  · cases h; exact applyHtmlTheme_ext W p M N s
  · cases h; exact applyFullTheme_ext W p M N s

theorem applyTheme_ext (C : Consts) (W : World) (silent : Bool) (s : State) :
    Ext (resetTheme C true s).nextId (resetTheme C true s) (applyTheme C W silent s).2 := by
  unfold applyTheme
  simp only []
  cases truthy (resetTheme C true s).settings.theme with
  | none => exact Ext.same (le_refl _) rfl rfl
  | some N =>
    simp only []
    cases W.getJSON (C.extensionFolderPath ++ "/themes/" ++ N ++ "/manifest.json") with
    | none => exact Ext.same (le_refl _) rfl rfl
    | some M =>
      simp only []
      cases hd : dispatch W (orElse M.type "full") (C.extensionFolderPath ++ "/themes/" ++ N)
          M N (resetTheme C true s) with
      | none => exact Ext.same (le_refl _) rfl rfl
      | some r =>
        have h := dispatch_ext _ _ _ _ _ _ _ hd
        obtain ⟨c, s1⟩ := r
        cases c
        · exact ⟨h.next, h.doc, h.reg⟩
        · exact h.emit _

/-! ## Reset -/

theorem resetTheme_nodes_removed (C : Consts) (silent : Bool) (s : State) :
    ∀ h ∈ s.loaded.nodes, h ∉ (resetTheme C silent s).doc.ids := by
  intro h hh hmem
  simp only [LoadedThemeElements.nodes, List.mem_append] at hh
  rcases hh with h1 | h2
  · exact not_mem_removeAll _ _ _ h1 (mem_of_mem_removeAll _ _ _ hmem)
  · exact not_mem_removeAll _ _ _ h2 hmem

theorem resetTheme_doc_subset (C : Consts) (silent : Bool) (s : State) :
    ∀ x ∈ (resetTheme C silent s).doc.ids, x ∈ s.doc.ids := by
  intro x hx
  exact mem_of_mem_removeAll _ _ _ (mem_of_mem_removeAll _ _ _ hx)

/-- C2: `resetTheme` is a total function of the state, whatever the registered module's
`disable` hook does (absent, returns, throws). After it the registry is empty
(`css = []`, `htmlElements = []`, `js = null`), `lastSuccessfulTheme` is empty, every
previously registered stylesheet or HTML node is out of the document, and the document
gained no node. -/
theorem resetTheme_clears (C : Consts) (silent : Bool) (s : State) :
    (resetTheme C silent s).loaded = { css := [], htmlElements := [], js := none } ∧
    (resetTheme C silent s).settings.lastSuccessfulTheme = none ∧
    (∀ l ∈ s.loaded.css, l.id ∉ (resetTheme C silent s).doc.ids) ∧
    (∀ h ∈ s.loaded.htmlElements, h ∉ (resetTheme C silent s).doc.ids) ∧
    (∀ x ∈ (resetTheme C silent s).doc.ids, x ∈ s.doc.ids) := by
  refine ⟨rfl, rfl, ?_, ?_, ?_⟩
  · intro l hl
    apply resetTheme_nodes_removed
    simp only [LoadedThemeElements.nodes, List.mem_append]
    exact Or.inl (List.mem_map_of_mem Link.id hl)
  · intro h hh
    apply resetTheme_nodes_removed
    simp only [LoadedThemeElements.nodes, List.mem_append]
    exact Or.inr hh
  · exact resetTheme_doc_subset C silent s

/-- C3: a second `resetTheme` right after a first one changes neither the registry, nor
the document, nor the settings (nor the head or the identity allocator); its only effects
are the "No JS to unload" console line, the settings save and, unless silent, the toast:
no `disable` hook is invoked and no node is removed. -/
theorem resetTheme_idempotent (C : Consts) (silent1 silent2 : Bool) (s : State) :
    (resetTheme C silent2 (resetTheme C silent1 s)).loaded = (resetTheme C silent1 s).loaded ∧
    (resetTheme C silent2 (resetTheme C silent1 s)).doc = (resetTheme C silent1 s).doc ∧
    (resetTheme C silent2 (resetTheme C silent1 s)).settings
      = (resetTheme C silent1 s).settings ∧
    (resetTheme C silent2 (resetTheme C silent1 s)).head = (resetTheme C silent1 s).head ∧
    (resetTheme C silent2 (resetTheme C silent1 s)).nextId = (resetTheme C silent1 s).nextId ∧
    (resetTheme C silent2 (resetTheme C silent1 s)).trace
      = (resetTheme C silent1 s).trace
        ++ [Event.consoleLog ("[" ++ C.extensionName ++ "] No JS to unload for theme \""
              ++ "null" ++ "\"."),
            Event.saveSettingsDebounced]
        ++ (if silent2 then []
            else [Event.toastrSuccess "Reset back to default SillyTavern theme."]) := by
  refine ⟨rfl, rfl, rfl, rfl, rfl, ?_⟩
  simp [resetTheme, unloadJs, render, removeAll]

/-! ## Artifact leakage -/

theorem registered_nodes_removed_by_next_apply (C : Consts) (W1 W2 : World)
    (silent1 silent2 : Bool) (s0 : State) (σ : Settings) :
    ∀ h ∈ (applyTheme C W1 silent1 s0).2.loaded.nodes,
      h ∉ (applyTheme C W2 silent2
            { (applyTheme C W1 silent1 s0).2 with settings := σ }).2.loaded.nodes ∧
      h ∉ (applyTheme C W2 silent2
            { (applyTheme C W1 silent1 s0).2 with settings := σ }).2.doc.ids := by
  intro h hh
  have e1 := applyTheme_ext C W1 silent1 s0
  have e2 := applyTheme_ext C W2 silent2 { (applyTheme C W1 silent1 s0).2 with settings := σ }
  -- the first apply registered its nodes with identities below the allocator
  have hlt : h < (applyTheme C W1 silent1 s0).2.nextId := by
    rcases e1.reg h hh with h' | h'
    · simp [resetTheme, LoadedThemeElements.nodes] at h'
    · exact h'.2
  have hnext : (resetTheme C true
      { (applyTheme C W1 silent1 s0).2 with settings := σ }).nextId
      = (applyTheme C W1 silent1 s0).2.nextId := rfl
  constructor
  · intro hmem
    rcases e2.reg h hmem with h' | h'
    · simp [resetTheme, LoadedThemeElements.nodes] at h'
    · rw [hnext] at h'
      omega
  · intro hmem
    rcases e2.doc h hmem with h' | h'
    · -- `h` would have survived the reset
      exact resetTheme_nodes_removed C true
        { (applyTheme C W1 silent1 s0).2 with settings := σ } h hh h'
    · rw [hnext] at h'
      omega

/-- C1 (code defect): the theme `midnight` (type `html`, with a script) is applied twice
in a row and both imports read the same clock value, so both build the specifier
`./themes/midnight/code.js?t=0`. The first apply registers the module object 9. The second
apply resets (the registry is cleared, `disable` is invoked on module 9) and imports again:
the module map answers with the same object, and module 9, registered by the first apply,
is in `loadedThemeElements.js` after the second apply. Had the clock advanced between the
two imports, the second apply would have registered the new module object 14. -/
theorem same_tick_reapply_keeps_module :
    (applyTheme exConsts (exScriptWorld 0) true (exState (some "midnight"))).2.loaded.js
      = some { id := 9,
               exports := { execute := some Hook.returns, disable := some Hook.returns } } ∧
    (applyTheme exConsts (exScriptWorld 0) true
        (applyTheme exConsts (exScriptWorld 0) true
          (exState (some "midnight"))).2).2.loaded.js
      = some { id := 9,
               exports := { execute := some Hook.returns, disable := some Hook.returns } } ∧
    9 ∈ (applyTheme exConsts (exScriptWorld 0) true
        (applyTheme exConsts (exScriptWorld 0) true
          (exState (some "midnight"))).2).2.loaded.handles ∧
    Event.disableCalled 9 ∈ (applyTheme exConsts (exScriptWorld 0) true
        (applyTheme exConsts (exScriptWorld 0) true
          (exState (some "midnight"))).2).2.trace ∧
    (applyTheme exConsts (exScriptWorld 1) true
        (applyTheme exConsts (exScriptWorld 0) true
          (exState (some "midnight"))).2).2.loaded.js
      = some { id := 14,
               exports := { execute := some Hook.returns, disable := some Hook.returns } } := by
  decide

/-! ## The paths through `applyTheme` -/

theorem resetTheme_theme (C : Consts) (silent : Bool) (s : State) :
    (resetTheme C silent s).settings.theme = s.settings.theme := rfl

theorem applyTheme_noTheme (C : Consts) (W : World) (silent : Bool) (s : State)
    (h : truthy s.settings.theme = none) :
    applyTheme C W silent s
      = (Exit.noTheme, (resetTheme C true s).emit [Event.toastrError "No theme specified."]) := by
  unfold applyTheme
  simp only [resetTheme_theme, h]

theorem applyTheme_noManifest (C : Consts) (W : World) (silent : Bool) (s : State) (N : String)
    (h : truthy s.settings.theme = some N)
    (hM : W.getJSON (C.extensionFolderPath ++ "/themes/" ++ N ++ "/manifest.json") = none) :
    applyTheme C W silent s = applyFailed N (resetTheme C true s) := by
  unfold applyTheme
  simp only [resetTheme_theme, h, hM]

theorem applyTheme_unknown (C : Consts) (W : World) (silent : Bool) (s : State) (N : String)
    (M : Manifest) (h : truthy s.settings.theme = some N)
    (hM : W.getJSON (C.extensionFolderPath ++ "/themes/" ++ N ++ "/manifest.json") = some M)
    (hd : dispatch W (orElse M.type "full") (C.extensionFolderPath ++ "/themes/" ++ N) M N
      (resetTheme C true s) = none) :
    applyTheme C W silent s
      = (Exit.unknownType, (resetTheme C true s).emit
          [Event.toastrError ("Unknown theme type \"" ++ orElse M.type "full"
            ++ "\" in manifest.")]) := by
  unfold applyTheme
  simp only [resetTheme_theme, h, hM, hd]

theorem applyTheme_thrown (C : Consts) (W : World) (silent : Bool) (s : State) (N : String)
    (M : Manifest) (t : State) (h : truthy s.settings.theme = some N)
    (hM : W.getJSON (C.extensionFolderPath ++ "/themes/" ++ N ++ "/manifest.json") = some M)
    (hd : dispatch W (orElse M.type "full") (C.extensionFolderPath ++ "/themes/" ++ N) M N
      (resetTheme C true s) = some (Completion.thrown, t)) :
    applyTheme C W silent s = applyFailed N t := by
  unfold applyTheme
  simp only [resetTheme_theme, h, hM, hd]

theorem applyTheme_normal (C : Consts) (W : World) (silent : Bool) (s : State) (N : String)
    (M : Manifest) (t : State) (h : truthy s.settings.theme = some N)
    (hM : W.getJSON (C.extensionFolderPath ++ "/themes/" ++ N ++ "/manifest.json") = some M)
    (hd : dispatch W (orElse M.type "full") (C.extensionFolderPath ++ "/themes/" ++ N) M N
      (resetTheme C true s) = some (Completion.normal, t)) :
    applyTheme C W silent s
      = (Exit.applied,
          { t with
            settings := { t.settings with lastSuccessfulTheme := some N }
            trace := t.trace ++ (if silent then [] else
              [Event.toastrSuccess ("Applied '" ++ orElse M.name N
                ++ "' theme successfully.")]) }) := by
  unfold applyTheme
  simp only [resetTheme_theme, h, hM, hd]

theorem dispatch_css (W : World) (p : String) (M : Manifest) (N : String) (s : State) :
    dispatch W "css" p M N s = some (applyCssTheme p M s) := by
  unfold dispatch
  rw [if_pos rfl]

theorem dispatch_html (W : World) (p : String) (M : Manifest) (N : String) (s : State) :
    dispatch W "html" p M N s = some (applyHtmlTheme W p M N s) := by
  unfold dispatch
  rw [if_neg (by decide), if_pos rfl]

theorem dispatch_full (W : World) (p : String) (M : Manifest) (N : String) (s : State) :
    dispatch W "full" p M N s = some (applyFullTheme W p M N s) := by
  unfold dispatch
  rw [if_neg (by decide), if_neg (by decide), if_pos rfl]

theorem dispatch_other (W : World) (ty p : String) (M : Manifest) (N : String) (s : State)
    (h1 : ty ≠ "css") (h2 : ty ≠ "html") (h3 : ty ≠ "full") :
    dispatch W ty p M N s = none := by
  unfold dispatch
  rw [if_neg h1, if_neg h2, if_neg h3]

theorem truthy_some (N : String) (hne : N ≠ "") : truthy (some N) = some N := by
  simp [truthy, hne]

/-! ## CSS themes -/

theorem applyCssFiles_normal (p : String) (fs : List String) (s t : State)
    (h : applyCssFiles p fs s = (Completion.normal, t)) :
    t.loaded.css.map Link.href = s.loaded.css.map Link.href ++ fs.map (fun f => p ++ "/" ++ f) ∧
    t.loaded.css.map Link.id = s.loaded.css.map Link.id ++ List.range' s.nextId fs.length ∧
    t.loaded.htmlElements = s.loaded.htmlElements ∧
    t.loaded.js = s.loaded.js ∧
    t.settings = s.settings ∧
    t.trace = s.trace ∧
    (∀ y ∈ s.doc.ids, y ∈ t.doc.ids) ∧
    (∀ y ∈ List.range' s.nextId fs.length, y ∈ t.doc.ids) := by
  induction fs generalizing s with
  | nil =>
    simp only [applyCssFiles, Prod.mk.injEq, true_and] at h
    subst h
    simp
  | cons f fs ih =>
    simp only [applyCssFiles, applyCssFile] at h
    by_cases hh : s.head ∈ s.doc.ids
    · simp only [hh, if_true] at h
      obtain ⟨h1, h2, h3, h4, h5, h6, h7, h8⟩ := ih _ h
      simp only [List.map_append, List.map_cons, List.map_nil, List.append_assoc,
        List.singleton_append] at h1 h2
      refine ⟨by simpa using h1, ?_, h3, h4, h5, h6, ?_, ?_⟩
      · rw [h2]
        simp [List.range'_succ]
      · intro y hy
        exact h7 y (Dom.mem_ids_appendChild_of_mem _ _ _ _ hy)
      · intro y hy
        simp only [List.length_cons, List.range'_succ, List.mem_cons] at hy
        rcases hy with rfl | hy
        · exact h7 _ (Dom.mem_ids_appendChild_new _ _ _ _ hh (by simp [Dom.ids]))
        · exact h8 y hy
    · simp [hh] at h

/-- C9: let the selected theme be `N` (non-empty) and let its manifest declare type
`css`. If `applyTheme` ends on its success path, the registry holds one stylesheet handle
per declared CSS file, in declared order and without de-duplication, with href
`<extensionFolderPath>/themes/N/<file>`; the handles are pairwise distinct nodes, each
attached to the document; there is no HTML node and no module, whatever `files.html` and
`files.js` declare; and `lastSuccessfulTheme` is `N`. -/
theorem css_theme_apply (C : Consts) (W : World) (silent : Bool) (s : State) (N : String)
    (M : Manifest) (hN : s.settings.theme = some N) (hne : N ≠ "")
    (hM : W.getJSON (C.extensionFolderPath ++ "/themes/" ++ N ++ "/manifest.json") = some M)
    (hT : M.type = some "css")
    (hOk : (applyTheme C W silent s).1 = Exit.applied) :
    (applyTheme C W silent s).2.loaded.css.map Link.href
      = ((M.files.bind Files.css).getD []).map
          (fun f => C.extensionFolderPath ++ "/themes/" ++ N ++ "/" ++ f) ∧
    ((applyTheme C W silent s).2.loaded.css.map Link.id).Nodup ∧
    (∀ l ∈ (applyTheme C W silent s).2.loaded.css, l.id ∈ (applyTheme C W silent s).2.doc.ids) ∧
    (applyTheme C W silent s).2.loaded.htmlElements = [] ∧
    (applyTheme C W silent s).2.loaded.js = none ∧
    (applyTheme C W silent s).2.settings.lastSuccessfulTheme = some N := by
  have ht : truthy s.settings.theme = some N := by rw [hN]; exact truthy_some N hne
  have hty : orElse M.type "full" = "css" := by simp [hT, orElse]
  have hd : dispatch W (orElse M.type "full") (C.extensionFolderPath ++ "/themes/" ++ N) M N
      (resetTheme C true s)
      = some (applyCssTheme (C.extensionFolderPath ++ "/themes/" ++ N) M
          (resetTheme C true s)) := by
    rw [hty, dispatch_css]
  rcases hr : applyCssTheme (C.extensionFolderPath ++ "/themes/" ++ N) M (resetTheme C true s)
    with ⟨c, t⟩
  rw [hr] at hd
  cases c
  · rw [applyTheme_normal C W silent s N M t ht hM hd]
    simp only []
    unfold applyCssTheme at hr
    cases hf : M.files.bind Files.css with
    | none =>
      simp only [hf, Prod.mk.injEq, true_and] at hr
      subst hr
      simp [resetTheme]
    | some fs =>
      simp only [hf] at hr
      obtain ⟨h1, h2, h3, h4, _, _, _, h8⟩ := applyCssFiles_normal _ _ _ _ hr
      refine ⟨?_, ?_, ?_, ?_, ?_, trivial⟩
      · simpa [resetTheme] using h1
      · simp only [h2]
        simpa [resetTheme] using List.nodup_range' _ _
      · intro l hl
        apply h8
        have : l.id ∈ t.loaded.css.map Link.id := List.mem_map_of_mem Link.id hl
        rw [h2] at this
        simpa [resetTheme] using this
      · simpa [resetTheme] using h3
      · simpa [resetTheme] using h4
  · rw [applyTheme_thrown C W silent s N M t ht hM hd] at hOk
    simp [applyFailed] at hOk

/-! ## What the sub-applicators depend on -/

theorem injectElements_congr (W W' : World) (M M' : Manifest)
    (hsel : W.selector = W'.selector) (hp : M.injectPoint = M'.injectPoint)
    (hm : M.injectMethod = M'.injectMethod) (els : List (Nat × Frag)) (s : State) :
    injectElements W M els s = injectElements W' M' els s := by
  induction els generalizing s with
  | nil => rfl
  | cons e els ih =>
    obtain ⟨el, f⟩ := e
    simp only [injectElements, hsel, hp, hm]
    cases W'.selector (orElse M'.injectPoint "#top-bar") with
    | none => rfl
    | some q => exact ih _

theorem applyHtmlFiles_congr (W W' : World) (M M' : Manifest) (hget : W.get = W'.get)
    (hsel : W.selector = W'.selector) (hp : M.injectPoint = M'.injectPoint)
    (hm : M.injectMethod = M'.injectMethod) (p : String) (fs : List String) (s : State) :
    applyHtmlFiles W p M fs s = applyHtmlFiles W' p M' fs s := by
  induction fs generalizing s with
  | nil => rfl
  | cons f fs ih =>
    simp only [applyHtmlFiles, hget, injectElements_congr W W' M M' hsel hp hm]
    cases W'.get (p ++ "/" ++ f) with
    | none => rfl
    | some frags =>
      simp only []
      rcases injectElements W' M' (parseHTML frags s.nextId)
        { s with nextId := s.nextId + fragsSize frags } with ⟨c, s1⟩
      cases c
      · exact ih s1
      · rfl

theorem applyHtml_congr (W W' : World) (M M' : Manifest) (hget : W.get = W'.get)
    (hsel : W.selector = W'.selector) (hp : M.injectPoint = M'.injectPoint)
    (hm : M.injectMethod = M'.injectMethod)
    (hh : M.files.bind Files.html = M'.files.bind Files.html) (p : String) (s : State) :
    applyHtml W p M s = applyHtml W' p M' s := by
  unfold applyHtml
  rw [hh]
  cases M'.files.bind Files.html with
  | none => rfl
  | some fs => exact applyHtmlFiles_congr W W' M M' hget hsel hp hm p fs s

theorem applyCssTheme_congr (M M' : Manifest)
    (hc : M.files.bind Files.css = M'.files.bind Files.css) (p : String) (s : State) :
    applyCssTheme p M s = applyCssTheme p M' s := by
  unfold applyCssTheme
  rw [hc]

theorem applyJs_congr (W W' : World) (M M' : Manifest)
    (hi : W.importModule = W'.importModule) (hn : W.now = W'.now)
    (hj : M.files.bind Files.js = M'.files.bind Files.js) (N : String) (s : State) :
    applyJs W N M s = applyJs W' N M' s := by
  unfold applyJs
  rw [hj, hi, hn]

theorem applyHtmlTheme_congr (W W' : World) (M M' : Manifest) (hget : W.get = W'.get)
    (hsel : W.selector = W'.selector) (hi : W.importModule = W'.importModule)
    (hn : W.now = W'.now) (hp : M.injectPoint = M'.injectPoint) (hm : M.injectMethod = M'.injectMethod)
    (hf : M.files = M'.files) (p N : String) (s : State) :
    applyHtmlTheme W p M N s = applyHtmlTheme W' p M' N s := by
  unfold applyHtmlTheme
  rw [applyCssTheme_congr M M' (by rw [hf]) p s]
  rcases applyCssTheme p M' s with ⟨c, s1⟩
  cases c
  · simp only []
    rw [applyHtml_congr W W' M M' hget hsel hp hm (by rw [hf]) p s1]
    rcases applyHtml W' p M' s1 with ⟨c2, s2⟩
    cases c2
    · simp only []
      rw [applyJs_congr W W' M M' hi hn (by rw [hf]) N s2]
    · rfl
  · rfl

theorem applyFullTheme_congr (W W' : World) (M M' : Manifest) (hget : W.get = W'.get)
    (hsel : W.selector = W'.selector) (hi : W.importModule = W'.importModule)
    (hn : W.now = W'.now) (hp : M.injectPoint = M'.injectPoint) (hm : M.injectMethod = M'.injectMethod)
    (hf : M.files = M'.files) (p N : String) (s : State) :
    applyFullTheme W p M N s = applyFullTheme W' p M' N s := by
  unfold applyFullTheme
  rw [applyCssTheme_congr M M' (by rw [hf]) p s]
  rcases applyCssTheme p M' s with ⟨c, s1⟩
  cases c
  · simp only []
    rw [applyHtmlTheme_congr W W' M M' hget hsel hi hn hp hm hf p N s1]
  · rfl

/-! ## Type default -/

/-- C10: for every manifest body `M`, every starting state and every outcome of the
other fetches and loads, `applyTheme` on the manifest without a `type` field yields the
same exit path and the same final state (registry, document, settings, trace) as
`applyTheme` on the manifest with `type: "full"`. -/
theorem type_default_full (C : Consts) (W : World) (silent : Bool) (s : State) (M : Manifest) :
    applyTheme C { W with getJSON := fun _ => some { M with type := none } } silent s
      = applyTheme C { W with getJSON := fun _ => some { M with type := some "full" } }
          silent s := by
  unfold applyTheme
  simp only []
  cases truthy (resetTheme C true s).settings.theme with
  | none => rfl
  | some N =>
    simp only []
    have hd : dispatch { W with getJSON := fun _ => some { M with type := none } }
        (orElse none "full") (C.extensionFolderPath ++ "/themes/" ++ N)
        { M with type := none } N (resetTheme C true s)
        = dispatch { W with getJSON := fun _ => some { M with type := some "full" } }
          (orElse (some "full") "full") (C.extensionFolderPath ++ "/themes/" ++ N)
          { M with type := some "full" } N (resetTheme C true s) := by
      have h1 : orElse none "full" = "full" := rfl
      have h2 : orElse (some "full") "full" = "full" := by decide
      rw [h1, h2]
      rw [dispatch_full, dispatch_full]
      exact congrArg some (applyFullTheme_congr
        { W with getJSON := fun _ => some { M with type := none } }
        { W with getJSON := fun _ => some { M with type := some "full" } }
        { M with type := none } { M with type := some "full" } rfl rfl rfl rfl rfl rfl rfl
        _ _ _)
    rw [hd]
    rfl

/-! ## Script failures -/

theorem dropJs_css (M : Manifest) : M.dropJs.files.bind Files.css = M.files.bind Files.css := by
  cases h : M.files <;> simp [Manifest.dropJs, h]

theorem dropJs_html (M : Manifest) :
    M.dropJs.files.bind Files.html = M.files.bind Files.html := by
  cases h : M.files <;> simp [Manifest.dropJs, h]

theorem dropJs_js (M : Manifest) : M.dropJs.files.bind Files.js = none := by
  cases h : M.files <;> simp [Manifest.dropJs, h]

theorem applyJs_dropJs (W : World) (N : String) (M : Manifest) (s : State) :
    applyJs W N M.dropJs s = s := by
  unfold applyJs
  rw [dropJs_js]
  rfl

theorem applyJs_keeps (W : World) (N : String) (M : Manifest) (s : State) :
    (applyJs W N M s).loaded.css = s.loaded.css ∧
    (applyJs W N M s).loaded.htmlElements = s.loaded.htmlElements ∧
    (applyJs W N M s).doc = s.doc ∧
    (applyJs W N M s).settings = s.settings := by
  unfold applyJs
  cases truthy (M.files.bind Files.js) with
  | none => exact ⟨rfl, rfl, rfl, rfl⟩
  | some js =>
    simp only []
    cases W.importModule ("./themes/" ++ N ++ "/" ++ js) with
    | none => exact ⟨rfl, rfl, rfl, rfl⟩
    | some ex =>
      obtain ⟨_, r2, r3, r4, _⟩ := resolveModule_next
        ("./themes/" ++ N ++ "/" ++ js ++ "?t=" ++ toString W.now) s
      simp only []
      cases ex.execute with
      | none => exact ⟨by simp [r3], by simp [r3], r2, r4⟩
      | some hk =>
        cases hk <;> exact ⟨by simp [State.emit, r3], by simp [State.emit, r3], r2, r4⟩

theorem applyJs_failure_logged (W : World) (N js : String) (M : Manifest) (s : State)
    (hjs : truthy (M.files.bind Files.js) = some js)
    (hfail : W.importModule ("./themes/" ++ N ++ "/" ++ js) = none ∨
      ∃ ex, W.importModule ("./themes/" ++ N ++ "/" ++ js) = some ex ∧
        ex.execute = some Hook.throws) :
    ∃ pre, (applyJs W N M s).trace = s.trace ++ pre ++
      [Event.consoleError ("Failed to load JS file '" ++ ("./themes/" ++ N ++ "/" ++ js)
        ++ "':")] := by
  unfold applyJs
  rw [hjs]
  simp only []
  rcases hfail with h | ⟨ex, h, hx⟩
  · rw [h]
    exact ⟨[], by simp [State.emit]⟩
  · rw [h]
    obtain ⟨_, _, _, _, r5⟩ := resolveModule_next
      ("./themes/" ++ N ++ "/" ++ js ++ "?t=" ++ toString W.now) s
    simp only [hx]
    exact ⟨[Event.executeCalled
      (resolveModule ("./themes/" ++ N ++ "/" ++ js ++ "?t=" ++ toString W.now) s).1],
      by simp [State.emit, r5]⟩

theorem applyHtmlTheme_dropJs (W W' : World) (hget : W.get = W'.get)
    (hsel : W.selector = W'.selector) (p N : String) (M : Manifest) (s : State) :
    applyHtmlTheme W p M N s =
      match (applyHtmlTheme W' p M.dropJs N s).1 with
      | Completion.normal =>
        (Completion.normal, applyJs W N M (applyHtmlTheme W' p M.dropJs N s).2)
      | Completion.thrown => applyHtmlTheme W' p M.dropJs N s := by
  unfold applyHtmlTheme
  rw [applyCssTheme_congr M.dropJs M (dropJs_css M) p s]
  rcases applyCssTheme p M s with ⟨c, s1⟩
  cases c
  · simp only []
    rw [applyHtml_congr W' W M.dropJs M hget.symm hsel.symm rfl rfl (dropJs_html M) p s1]
    rcases applyHtml W p M s1 with ⟨c2, s2⟩
    cases c2
    · simp only [applyJs_dropJs]
    · rfl
  · rfl

theorem applyFullTheme_dropJs (W W' : World) (hget : W.get = W'.get)
    (hsel : W.selector = W'.selector) (p N : String) (M : Manifest) (s : State) :
    applyFullTheme W p M N s =
      match (applyFullTheme W' p M.dropJs N s).1 with
      | Completion.normal =>
        (Completion.normal, applyJs W N M (applyFullTheme W' p M.dropJs N s).2)
      | Completion.thrown => applyFullTheme W' p M.dropJs N s := by
  unfold applyFullTheme
  rw [applyCssTheme_congr M.dropJs M (dropJs_css M) p s]
  rcases applyCssTheme p M s with ⟨c, s1⟩
  cases c
  · simp only []
    rw [applyHtmlTheme_dropJs W W' hget hsel p N M s1]
    rcases applyHtmlTheme W' p M.dropJs N s1 with ⟨c2, s2⟩
    cases c2
    · rfl
    · rfl
  · rfl

/-- C6: let the selected theme `N` have a manifest `M` of effective type `html` or `full`
that declares a script, and let the dynamic import fail or `execute()` throw. If the CSS
and HTML steps go through (the same theme without its script applies successfully), then
`applyTheme` ends on its success path, `lastSuccessfulTheme` is `N`, the registered
stylesheets, the registered HTML nodes and the document are exactly those the CSS and HTML
steps produced, and the failure was logged to the console. -/
theorem script_failure_contained (C : Consts) (W : World) (silent : Bool) (s : State)
    (N js : String) (M : Manifest) (hN : s.settings.theme = some N) (hne : N ≠ "")
    (hM : W.getJSON (C.extensionFolderPath ++ "/themes/" ++ N ++ "/manifest.json") = some M)
    (hT : orElse M.type "full" = "html" ∨ orElse M.type "full" = "full")
    (hjs : truthy (M.files.bind Files.js) = some js)
    (hfail : W.importModule ("./themes/" ++ N ++ "/" ++ js) = none ∨
      ∃ ex, W.importModule ("./themes/" ++ N ++ "/" ++ js) = some ex ∧
        ex.execute = some Hook.throws)
    (hOk : (applyTheme C { W with getJSON := fun _ => some M.dropJs } silent s).1
      = Exit.applied) :
    (applyTheme C W silent s).1 = Exit.applied ∧
    (applyTheme C W silent s).2.settings.lastSuccessfulTheme = some N ∧
    (applyTheme C W silent s).2.loaded.css
      = (applyTheme C { W with getJSON := fun _ => some M.dropJs } silent s).2.loaded.css ∧
    (applyTheme C W silent s).2.loaded.htmlElements
      = (applyTheme C { W with getJSON := fun _ => some M.dropJs } silent s).2.loaded.htmlElements ∧
    (applyTheme C W silent s).2.doc
      = (applyTheme C { W with getJSON := fun _ => some M.dropJs } silent s).2.doc ∧
    Event.consoleError ("Failed to load JS file '" ++ ("./themes/" ++ N ++ "/" ++ js) ++ "':")
      ∈ (applyTheme C W silent s).2.trace := by
  have ht : truthy s.settings.theme = some N := by rw [hN]; exact truthy_some N hne
  have hTy : orElse M.dropJs.type "full" = orElse M.type "full" := rfl
  -- the dispatch of the theme with its script, in terms of the theme without it
  have key : ∃ b : Completion × State,
      dispatch { W with getJSON := fun _ => some M.dropJs } (orElse M.dropJs.type "full")
        (C.extensionFolderPath ++ "/themes/" ++ N) M.dropJs N (resetTheme C true s) = some b ∧
      dispatch W (orElse M.type "full") (C.extensionFolderPath ++ "/themes/" ++ N) M N
        (resetTheme C true s)
        = some (match b.1 with
          | Completion.normal => (Completion.normal, applyJs W N M b.2)
          | Completion.thrown => b) := by
    rw [hTy]
    rcases hT with h | h
    · rw [h]
      refine ⟨applyHtmlTheme { W with getJSON := fun _ => some M.dropJs }
        (C.extensionFolderPath ++ "/themes/" ++ N) M.dropJs N (resetTheme C true s), ?_, ?_⟩
      · rw [dispatch_html]
      · rw [dispatch_html]
        exact congrArg some (applyHtmlTheme_dropJs W
          { W with getJSON := fun _ => some M.dropJs } rfl rfl _ _ _ _)
    · rw [h]
      refine ⟨applyFullTheme { W with getJSON := fun _ => some M.dropJs }
        (C.extensionFolderPath ++ "/themes/" ++ N) M.dropJs N (resetTheme C true s), ?_, ?_⟩
      · rw [dispatch_full]
      · rw [dispatch_full]
        exact congrArg some (applyFullTheme_dropJs W
          { W with getJSON := fun _ => some M.dropJs } rfl rfl _ _ _ _)
  obtain ⟨⟨c, t⟩, hb, ha⟩ := key
  cases c
  · simp only [] at ha
    rw [applyTheme_normal C W silent s N M _ ht hM ha]
    rw [applyTheme_normal C _ silent s N M.dropJs t ht rfl hb]
    obtain ⟨k1, k2, k3, _⟩ := applyJs_keeps W N M t
    obtain ⟨pre, hpre⟩ := applyJs_failure_logged W N js M t hjs hfail
    refine ⟨rfl, rfl, k1, k2, k3, ?_⟩
    show _ ∈ (applyJs W N M t).trace ++ _
    rw [hpre]
    exact List.mem_append_left _ (List.mem_append_right _ (List.mem_singleton_self _))
  · rw [applyTheme_thrown C _ silent s N M.dropJs t ht rfl hb] at hOk
    simp [applyFailed] at hOk

/-! ## Failed and refused applies -/

/-- C7 as stated fails: with the theme `midnight` applied (so that `lastSuccessfulTheme`
names it) and `missing-theme` selected, the manifest fetch fails and `applyTheme` leaves
`lastSuccessfulTheme` empty, not at its previous value. -/
theorem missing_manifest_keeps_last_refuted :
    ¬ ∀ (C : Consts) (W : World) (silent : Bool) (s : State) (N : String),
        s.settings.theme = some N → N ≠ "" →
        W.getJSON (C.extensionFolderPath ++ "/themes/" ++ N ++ "/manifest.json") = none →
        (applyTheme C W silent s).1 = Exit.failed ∧
        (applyTheme C W silent s).2.loaded = { css := [], htmlElements := [], js := none } ∧
        (applyTheme C W silent s).2.settings.lastSuccessfulTheme
          = s.settings.lastSuccessfulTheme := by
  intro h
  have h' := h exConsts (exWorld midnightManifest none) false (exApplied (some "missing-theme"))
    "missing-theme" rfl (by decide) (by decide)
  exact absurd h'.2.2 (by decide)

/-- C7, amended: if the manifest fetch for the selected (non-empty) theme fails, then
`applyTheme` ends in its failure branch and reports the failure by toast, the registry is
empty afterwards, every node that was registered before is out of the document, and
`lastSuccessfulTheme` is empty (the reset that opens every apply cleared it). -/
theorem missing_manifest_apply (C : Consts) (W : World) (silent : Bool) (s : State)
    (N : String) (hN : s.settings.theme = some N) (hne : N ≠ "")
    (hM : W.getJSON (C.extensionFolderPath ++ "/themes/" ++ N ++ "/manifest.json") = none) :
    (applyTheme C W silent s).1 = Exit.failed ∧
    Event.toastrError ("Failed to load/apply theme \"" ++ N
        ++ "\". Check the console for details.") ∈ (applyTheme C W silent s).2.trace ∧
    (applyTheme C W silent s).2.loaded = { css := [], htmlElements := [], js := none } ∧
    (∀ h ∈ s.loaded.nodes, h ∉ (applyTheme C W silent s).2.doc.ids) ∧
    (applyTheme C W silent s).2.settings.lastSuccessfulTheme = none := by
  have ht : truthy s.settings.theme = some N := by rw [hN]; exact truthy_some N hne
  rw [applyTheme_noManifest C W silent s N ht hM]
  refine ⟨rfl, ?_, rfl, ?_, rfl⟩
  · simp [applyFailed, State.emit]
  · exact resetTheme_nodes_removed C true s

/-- Witness for C7 (amended): the failed apply of `missing-theme` over an applied
`midnight`. -/
theorem missing_manifest_apply_witness :
    (applyTheme exConsts (exWorld midnightManifest none) false
        (exApplied (some "missing-theme"))).1 = Exit.failed ∧
    (applyTheme exConsts (exWorld midnightManifest none) false
        (exApplied (some "missing-theme"))).2.loaded
      = { css := [], htmlElements := [], js := none } ∧
    (applyTheme exConsts (exWorld midnightManifest none) false
        (exApplied (some "missing-theme"))).2.settings.lastSuccessfulTheme = none :=
  have h := missing_manifest_apply exConsts (exWorld midnightManifest none) false
    (exApplied (some "missing-theme")) "missing-theme" rfl (by decide) (by decide)
  ⟨h.1, h.2.2.1, h.2.2.2.2⟩

/-- C8 as stated fails: with the theme `midnight` applied and the theme name emptied,
`applyTheme` reports "No theme specified." but has already reset: the registry, the document
and `lastSuccessfulTheme` are not what they were before the request. -/
theorem config_error_no_mutation_refuted :
    ¬ ∀ (C : Consts) (W : World) (silent : Bool) (s : State),
        (s.settings.enabled = false →
          (onThemeApplyClick C W s).loaded = s.loaded ∧
          (onThemeApplyClick C W s).doc = s.doc ∧
          (onThemeApplyClick C W s).settings = s.settings) ∧
        (truthy s.settings.theme = none →
          (applyTheme C W silent s).2.loaded = s.loaded ∧
          (applyTheme C W silent s).2.doc = s.doc ∧
          (applyTheme C W silent s).2.settings = s.settings) ∧
        (∀ N M, truthy s.settings.theme = some N →
          W.getJSON (C.extensionFolderPath ++ "/themes/" ++ N ++ "/manifest.json") = some M →
          orElse M.type "full" ≠ "css" → orElse M.type "full" ≠ "html" →
          orElse M.type "full" ≠ "full" →
          (applyTheme C W silent s).2.loaded = s.loaded ∧
          (applyTheme C W silent s).2.doc = s.doc ∧
          (applyTheme C W silent s).2.settings = s.settings) := by
  intro h
  have h' := (h exConsts (exWorld midnightManifest none) false (exApplied (some ""))).2.1
    (by decide)
  exact absurd h'.1 (by decide)

/-- C8, amended: (a) an apply click while theming is disabled only raises the toast
"Guinevere is not enabled.": registry, document and settings are untouched. (b) With an
empty theme name, and (c) with a manifest whose effective type is none of css/html/full,
`applyTheme` raises its error toast on top of the state left by the reset that opens every
apply: the registry is empty, the previously registered nodes are out of the document,
`lastSuccessfulTheme` is empty, and nothing is applied or registered (the document gained
no node). -/
theorem config_errors (C : Consts) (W : World) (silent : Bool) (s : State) :
    (s.settings.enabled = false →
      (onThemeApplyClick C W s).loaded = s.loaded ∧
      (onThemeApplyClick C W s).doc = s.doc ∧
      (onThemeApplyClick C W s).settings = s.settings ∧
      (onThemeApplyClick C W s).trace
        = s.trace ++ [Event.toastrError "Guinevere is not enabled."]) ∧
    (truthy s.settings.theme = none →
      applyTheme C W silent s
        = (Exit.noTheme,
            (resetTheme C true s).emit [Event.toastrError "No theme specified."]) ∧
      (applyTheme C W silent s).2.loaded = { css := [], htmlElements := [], js := none } ∧
      (applyTheme C W silent s).2.settings.lastSuccessfulTheme = none ∧
      (∀ h ∈ s.loaded.nodes, h ∉ (applyTheme C W silent s).2.doc.ids) ∧
      (∀ x ∈ (applyTheme C W silent s).2.doc.ids, x ∈ s.doc.ids)) ∧
    (∀ N M, truthy s.settings.theme = some N →
      W.getJSON (C.extensionFolderPath ++ "/themes/" ++ N ++ "/manifest.json") = some M →
      orElse M.type "full" ≠ "css" → orElse M.type "full" ≠ "html" →
      orElse M.type "full" ≠ "full" →
      applyTheme C W silent s
        = (Exit.unknownType, (resetTheme C true s).emit
            [Event.toastrError ("Unknown theme type \"" ++ orElse M.type "full"
              ++ "\" in manifest.")]) ∧
      (applyTheme C W silent s).2.loaded = { css := [], htmlElements := [], js := none } ∧
      (applyTheme C W silent s).2.settings.lastSuccessfulTheme = none ∧
      (∀ h ∈ s.loaded.nodes, h ∉ (applyTheme C W silent s).2.doc.ids) ∧
      (∀ x ∈ (applyTheme C W silent s).2.doc.ids, x ∈ s.doc.ids)) := by
  refine ⟨?_, ?_, ?_⟩
  · intro he
    simp [onThemeApplyClick, he, State.emit]
  · intro ht
    rw [applyTheme_noTheme C W silent s ht]
    exact ⟨rfl, rfl, rfl, resetTheme_nodes_removed C true s, resetTheme_doc_subset C true s⟩
  · intro N M ht hM h1 h2 h3
    rw [applyTheme_unknown C W silent s N M ht hM (dispatch_other _ _ _ _ _ _ h1 h2 h3)]
    exact ⟨rfl, rfl, rfl, resetTheme_nodes_removed C true s, resetTheme_doc_subset C true s⟩

/-- Witness for C8 (amended): the three refusals at concrete states. -/
theorem config_errors_witness :
    (onThemeApplyClick exConsts (exWorld midnightManifest none) exDisabled).loaded
      = exDisabled.loaded ∧
    (applyTheme exConsts (exWorld midnightManifest none) false (exApplied (some ""))).1
      = Exit.noTheme ∧
    (applyTheme exConsts (exWorld (exManifest (some "fancy") none none) none) false
        (exApplied (some "midnight"))).1 = Exit.unknownType :=
  ⟨((config_errors exConsts (exWorld midnightManifest none) false exDisabled).1 rfl).1,
   congrArg Prod.fst ((config_errors exConsts (exWorld midnightManifest none) false
        (exApplied (some ""))).2.1 (by decide)).1,
   congrArg Prod.fst ((config_errors exConsts (exWorld (exManifest (some "fancy") none none) none)
        false (exApplied (some "midnight"))).2.2 "midnight" (exManifest (some "fancy") none none)
        (by decide) (by decide) (by decide) (by decide) (by decide)).1⟩

/-! ## Divergences between the code and its specification -/

/-- C4 (code defect): for the manifest `files.css = ["a.css"]`, `applyFullTheme` registers
and attaches two stylesheet links for the one declared file, where `applyHtmlTheme`
registers and attaches one: `applyFullTheme` calls `applyCssTheme` and then
`applyHtmlTheme`, which calls `applyCssTheme` again. -/
theorem full_theme_doubles_css :
    (applyFullTheme (exWorld midnightManifest none) "ext/themes/midnight" midnightManifest
        "midnight" (exState (some "midnight"))).2.loaded.css
      = [{ id := 5, href := "ext/themes/midnight/a.css" },
         { id := 6, href := "ext/themes/midnight/a.css" }] ∧
    (applyHtmlTheme (exWorld midnightManifest none) "ext/themes/midnight" midnightManifest
        "midnight" (exState (some "midnight"))).2.loaded.css
      = [{ id := 5, href := "ext/themes/midnight/a.css" }] ∧
    Dom.childrenOf 1 (applyFullTheme (exWorld midnightManifest none) "ext/themes/midnight"
        midnightManifest "midnight" (exState (some "midnight"))).2.doc = [5, 6] ∧
    Dom.childrenOf 1 (applyHtmlTheme (exWorld midnightManifest none) "ext/themes/midnight"
        midnightManifest "midnight" (exState (some "midnight"))).2.doc = [5] := by
  decide

/-- C5 (code defect): the anchor `#top-bar` (node 3) is matched exactly once; `x.html`
yields the nodes 6, 7 and `y.html` the node 8, registered in that order. With
`injectMethod` "before" the siblings read 6, 7, 8, anchor and with "append" the children
of the anchor read 6, 7, 8; but with "after" the siblings read anchor, 8, 7, 6 and with
"prepend" the children read 8, 7, 6: the order is reversed, within a file and across
files, because each node is inserted right next to the anchor in turn. -/
theorem after_and_prepend_reverse_order :
    exPage.select (fun tag => tag == "#top-bar") = [3] ∧
    (applyHtmlTheme (exWorld (exManifest (some "html") (some "after") none) none)
        "ext/themes/midnight" (exManifest (some "html") (some "after") none) "midnight"
        (exState (some "midnight"))).2.loaded.htmlElements = [6, 7, 8] ∧
    Dom.siblingsOf 3 (applyHtmlTheme (exWorld (exManifest (some "html") (some "before") none) none)
        "ext/themes/midnight" (exManifest (some "html") (some "before") none) "midnight"
        (exState (some "midnight"))).2.doc = [6, 7, 8, 3, 4] ∧
    Dom.childrenOf 3 (applyHtmlTheme (exWorld (exManifest (some "html") (some "append") none) none)
        "ext/themes/midnight" (exManifest (some "html") (some "append") none) "midnight"
        (exState (some "midnight"))).2.doc = [6, 7, 8] ∧
    Dom.siblingsOf 3 (applyHtmlTheme (exWorld (exManifest (some "html") (some "after") none) none)
        "ext/themes/midnight" (exManifest (some "html") (some "after") none) "midnight"
        (exState (some "midnight"))).2.doc = [3, 8, 7, 6, 4] ∧
    Dom.childrenOf 3 (applyHtmlTheme (exWorld (exManifest (some "html") (some "prepend") none) none)
        "ext/themes/midnight" (exManifest (some "html") (some "prepend") none) "midnight"
        (exState (some "midnight"))).2.doc = [8, 7, 6] := by
  decide

/-! ## Witnesses -/

/-- Witness for C9: theme `midnight` with `files.css = ["a.css"]` ends with exactly one
link, of href `ext/themes/midnight/a.css`, no HTML node, no module, and
`lastSuccessfulTheme = "midnight"`. -/
theorem css_theme_apply_witness :
    (applyTheme exConsts (exWorld midnightManifest none) false
        (exState (some "midnight"))).2.loaded.css.map Link.href
      = ["ext/themes/midnight/a.css"] ∧
    (applyTheme exConsts (exWorld midnightManifest none) false
        (exState (some "midnight"))).2.loaded.htmlElements = [] ∧
    (applyTheme exConsts (exWorld midnightManifest none) false
        (exState (some "midnight"))).2.loaded.js = none ∧
    (applyTheme exConsts (exWorld midnightManifest none) false
        (exState (some "midnight"))).2.settings.lastSuccessfulTheme = some "midnight" :=
  have h := css_theme_apply exConsts (exWorld midnightManifest none) false
    (exState (some "midnight")) "midnight" midnightManifest rfl (by decide) (by decide) rfl
    (by decide)
  ⟨h.1.trans (by decide), h.2.2.2.1, h.2.2.2.2.1, h.2.2.2.2.2⟩

/-- Witness for C6: an `html` theme whose script throws in `execute()`. -/
theorem script_failure_contained_witness :
    (applyTheme exConsts
        (exWorld (exManifest (some "html") none (some "code.js"))
          (some { execute := some Hook.throws, disable := none }))
        false (exState (some "midnight"))).1 = Exit.applied ∧
    (applyTheme exConsts
        (exWorld (exManifest (some "html") none (some "code.js"))
          (some { execute := some Hook.throws, disable := none }))
        false (exState (some "midnight"))).2.settings.lastSuccessfulTheme = some "midnight" :=
  have h := script_failure_contained exConsts
    (exWorld (exManifest (some "html") none (some "code.js"))
      (some { execute := some Hook.throws, disable := none }))
    false (exState (some "midnight")) "midnight" "code.js"
    (exManifest (some "html") none (some "code.js")) rfl (by decide) (by decide)
    (Or.inl (by decide)) (by decide)
    (Or.inr ⟨{ execute := some Hook.throws, disable := none }, rfl, rfl⟩) (by decide)
  ⟨h.1, h.2.1⟩

/-- Witness for C2: resetting the state in which `midnight` is applied removes its link 5. -/
theorem resetTheme_clears_witness :
    (resetTheme exConsts false (exApplied (some "midnight"))).loaded
      = { css := [], htmlElements := [], js := none } ∧
    5 ∉ (resetTheme exConsts false (exApplied (some "midnight"))).doc.ids :=
  have h := resetTheme_clears exConsts false (exApplied (some "midnight"))
  ⟨h.1, h.2.2.1 { id := 5, href := "ext/themes/midnight/a.css" } (by decide)⟩

end Guinevere
